import Mathlib

/-!
Verification of the spreadsheet-to-summary pipeline in src/server/routes.ts
of the NewExcelStat repository.

The embedding models cell values as strings (the code reads every cell via
toString with empty-string defaults), grids as lists of rows, and the
JavaScript string helpers (trim, toLowerCase, includes, parseInt) as
executable Lean functions over the character lists of strings.  Numbers are
modelled as unbounded Int, matching parseInt results on the small integer
cells the pipeline handles.  String.prototype.localeCompare is modelled as
code-point lexicographic comparison, and Array.prototype.sort with the
UPS-last comparator is modelled with insertion sort, which produces the
unique order determined by that comparator on lists of pairwise distinct
warehouse codes.  JavaScript string length counts UTF-16 code units; the
model counts code points, which agrees on all BMP text such as the Chinese
marker substrings used by the classifier.
-/

/-! ## JavaScript string primitives -/

/-- Model of String.prototype.trim: drop whitespace from both ends. -/
def jsTrim (s : String) : String :=
  String.mk (((s.data.dropWhile Char.isWhitespace).reverse.dropWhile Char.isWhitespace).reverse)

/-- Model of String.prototype.toLowerCase restricted to ASCII letters. -/
def jsToLower (s : String) : String :=
  String.mk (s.data.map Char.toLower)

/-- Model of String.prototype.includes: substring containment. -/
def jsIncludes (s pat : String) : Bool :=
  decide (pat.data <:+: s.data)

/-- Decimal value of a digit list. -/
def decNat (ds : List Char) : Nat :=
  ds.foldl (fun a c => a * 10 + (c.toNat - 48)) 0

/-- Hexadecimal digit test, as accepted by parseInt with a 0x prefix. -/
def isHexDigit (c : Char) : Bool :=
  c.isDigit || ('a' ≤ c && c ≤ 'f') || ('A' ≤ c && c ≤ 'F')

/-- Numeric value of one hexadecimal digit. -/
def hexDigitVal (c : Char) : Nat :=
  if c.isDigit then c.toNat - 48
  else if 'a' ≤ c && c ≤ 'f' then c.toNat - 87
  else c.toNat - 55

/-- Hexadecimal value of a digit list. -/
def hexNat (ds : List Char) : Nat :=
  ds.foldl (fun a c => a * 16 + hexDigitVal c) 0

/-- Model of JavaScript parseInt with no radix argument: skip leading
whitespace, read an optional sign, detect a 0x or 0X prefix as hexadecimal,
otherwise read the longest decimal digit prefix; none models NaN. -/
def parseIntJS (s : String) : Option Int :=
  let l := s.data.dropWhile Char.isWhitespace
  let sign : Int := if l.head? = some '-' then -1 else 1
  let l := if l.head? = some '-' ∨ l.head? = some '+' then l.tail else l
  match l with
  | '0' :: c :: rest =>
    if c = 'x' ∨ c = 'X' then
      let ds := rest.takeWhile isHexDigit
      if ds.isEmpty then none else some (sign * (hexNat ds : Int))
    else
      some (sign * (decNat (('0' :: c :: rest).takeWhile Char.isDigit) : Int))
  | _ =>
    let ds := l.takeWhile Char.isDigit
    if ds.isEmpty then none else some (sign * (decNat ds : Int))

/-! ## Grid model

A cell is the string contents the code obtains from toString with the
empty-string default for missing cells and array holes; a grid is the
row-major array of arrays delivered by sheet_to_json.  Writes extend rows
and the grid exactly the way JavaScript index assignment extends sparse
arrays, with holes materialised as empty cells and empty rows. -/

abbrev Cell := String

abbrev GridRow := List Cell

abbrev Grid := List GridRow

/-- Merge region from the worksheet metadata, 0-indexed and inclusive. -/
structure MergeRegion where
  startRow : Nat
  endRow : Nat
  startCol : Nat
  endCol : Nat
deriving DecidableEq

/-- Read a cell; missing rows and cells read as the empty string. -/
def getCell (g : Grid) (r c : Nat) : Cell :=
  (g.getD r []).getD c ""

/-- Write position c of a row, padding with empty cells as JavaScript
index assignment pads with holes. -/
def setInRow : GridRow → Nat → Cell → GridRow
  | [], 0, v => [v]
  | [], c + 1, v => "" :: setInRow [] c v
  | _ :: rest, 0, v => v :: rest
  | x :: rest, c + 1, v => x :: setInRow rest c v

/-- Write row r of a grid, padding with empty rows. -/
def setRowIn : Grid → Nat → GridRow → Grid
  | [], 0, row => [row]
  | [], r + 1, row => [] :: setRowIn [] r row
  | _ :: rest, 0, row => row :: rest
  | g0 :: rest, r + 1, row => g0 :: setRowIn rest r row

/-- Write one cell of the grid. -/
def setCell (g : Grid) (r c : Nat) (v : Cell) : Grid :=
  setRowIn g r (setInRow (g.getD r []) c v)

/-- Materialise row r if it does not exist yet, as the assignment of an
empty array to a missing index does in unmergeAndFillCells. -/
def ensureRow (g : Grid) (r : Nat) : Grid :=
  if r < g.length then g else setRowIn g r []

/-! ## Cell grid normalizer (unmergeAndFillCells) -/

/-- One write of the CTN-clearing loop: clear the cell only when the row
exists, as the code guards the assignment with a truthiness test. -/
def clearStep (col : Nat) (d : Grid) (row : Nat) : Grid :=
  if row < d.length then setCell d row col "" else d

/-- One write of the fill loop: copy the source value into the cell only
when the cell currently reads empty. -/
def fillCellStep (row : Nat) (src : Cell) (d : Grid) (col : Nat) : Grid :=
  if getCell d row col = "" then setCell d row col src else d

/-- Fill the cells of one row of a merge region with the source value. -/
def fillRow (d : Grid) (row sc ec : Nat) (src : Cell) : Grid :=
  (List.range' sc (ec + 1 - sc)).foldl (fillCellStep row src) (ensureRow d row)

/-- Process one merge region: for a region starting in the quantity column
(index 3) clear the quantity cell of every covered row after the first;
otherwise fill every currently-empty covered cell with the value read at
the top-left corner of the region. -/
def applyMerge (data : Grid) (m : MergeRegion) : Grid :=
  let src := getCell data m.startRow m.startCol
  if m.startCol = 3 then
    (List.range' (m.startRow + 1) (m.endRow - m.startRow)).foldl (clearStep m.startCol) data
  else
    (List.range' m.startRow (m.endRow + 1 - m.startRow)).foldl
      (fun d row => fillRow d row m.startCol m.endCol src) data

/-- Model of unmergeAndFillCells: process the merge regions in source
order over the raw grid. -/
def unmergeAndFillCells (g : Grid) (merges : List MergeRegion) : Grid :=
  merges.foldl applyMerge g

/-! ## Container and header locators -/

/-- Uppercase ASCII letter test, the character class of the container
number pattern. -/
def isUpperAZ (c : Char) : Bool :=
  'A' ≤ c && c ≤ 'Z'

/-- Try to match four uppercase letters followed by at least seven digits
at the head of the character list, taking the digits greedily. -/
def matchCtrAt (l : List Char) : Option String :=
  match l with
  | a :: b :: c :: d :: rest =>
    if isUpperAZ a && isUpperAZ b && isUpperAZ c && isUpperAZ d then
      let ds := rest.takeWhile Char.isDigit
      if 7 ≤ ds.length then some (String.mk ([a, b, c, d] ++ ds)) else none
    else none
  | _ => none

/-- Leftmost match of the container number pattern inside a cell. -/
def findCtrIn : List Char → Option String
  | [] => none
  | a :: rest =>
    match matchCtrAt (a :: rest) with
    | some s => some s
    | none => findCtrIn rest

/-- First container number match among the first fifteen cells of a row. -/
def findCtrRow (row : GridRow) : Option String :=
  (row.take 15).foldl (fun acc c => acc <|> findCtrIn c.data) none

/-- Model of the container number scan: first match over the first five
rows, row major, empty string when nothing matches. -/
def findContainerNumber (data : Grid) : String :=
  ((data.take 5).foldl (fun acc row => acc <|> findCtrRow row) none).getD ""

/-- A row announces the header when some cell, lowercased, contains the
quantity header token in English or Chinese. -/
def rowHasCtnHeader (row : GridRow) : Bool :=
  row.any (fun c => jsIncludes (jsToLower c) "ctn" || jsIncludes (jsToLower c) "箱数")

/-- Model of the data start computation: the row after the first header
row, defaulting to index 2 when no header is found. -/
def findDataStartRow (data : Grid) : Nat :=
  match data.findIdx? rowHasCtnHeader with
  | some i => i + 1
  | none => 2

/-! ## Row classifier and aggregator -/

/-- Accumulated reference-details bucket value. -/
structure RefDetail where
  type : String
  reference1 : String
  reference2 : String
  ctn : Int
deriving DecidableEq

/-- Output entry of the warehouse summary. -/
structure WhEntry where
  warehouse : String
  ctn : Int
  skid : String
deriving DecidableEq

/-- Aggregation state: the warehouse object, the reference-details object
(both as insertion-ordered association lists keyed by strings, the order
Object.entries and Object.values deliver for the non-numeric keys the
code builds), and the running grand total. -/
structure AggState where
  ws : List (String × Int)
  refs : List (String × RefDetail)
  total : Int
deriving DecidableEq

/-- Empty aggregation state. -/
def initState : AggState := ⟨[], [], 0⟩

/-- Add into a string-keyed object: merge into the existing entry when the
key is present, otherwise append a fresh entry. -/
def bumpAssoc {β : Type} (merge : β → β → β) : List (String × β) → String → β → List (String × β)
  | [], k, v => [(k, v)]
  | (k0, v0) :: rest, k, v =>
    if k0 = k then (k0, merge v0 v) :: rest
    else (k0, v0) :: bumpAssoc merge rest k v

/-- Warehouse bucket update: add the quantity to the entry of the code. -/
def bumpWs (l : List (String × Int)) (k : String) (v : Int) : List (String × Int) :=
  bumpAssoc (fun a b => a + b) l k v

/-- Reference-details bucket update: an existing entry keeps its stored
type and references and only accumulates the quantity. -/
def bumpRef (l : List (String × RefDetail)) (k : String) (d : RefDetail) : List (String × RefDetail) :=
  bumpAssoc (fun old new => { old with ctn := old.ctn + new.ctn }) l k d

/-- Key string of a reference-details bucket. -/
def mkRefKey (t r1 r2 : String) : String :=
  t ++ "_" ++ r1 ++ "_" ++ r2

/-- Amount currently stored for a warehouse code, zero when absent. -/
def wsAmount : List (String × Int) → String → Int
  | [], _ => 0
  | (k0, v) :: rest, k => if k0 = k then v else wsAmount rest k

/-- Column A, trimmed: reference1. -/
def rowRef1 (row : GridRow) : String := jsTrim (row.getD 0 "")

/-- Column C, trimmed: reference2. -/
def rowRef2 (row : GridRow) : String := jsTrim (row.getD 2 "")

/-- Column D, raw text of the quantity cell. -/
def rowQtyRaw (row : GridRow) : String := row.getD 3 ""

/-- Parsed quantity: parseInt with the or-zero fallback of the code. -/
def rowCtn (row : GridRow) : Int := (parseIntJS (rowQtyRaw row)).getD 0

/-- Column M, trimmed: destination warehouse code. -/
def rowWarehouse (row : GridRow) : String := jsTrim (row.getD 12 "")

/-- Column N, trimmed: note text. -/
def rowNote (row : GridRow) : String := jsTrim (row.getD 13 "")

/-- Skip policy of the row loop: quantity parsing to zero or NaN, an empty
or falsy quantity cell, or raw quantity text containing an equals sign or a
case-insensitive total marker. -/
def skipRow (row : GridRow) : Bool :=
  rowCtn row == 0 || rowQtyRaw row == "" ||
    jsIncludes (rowQtyRaw row) "=" || jsIncludes (jsToLower (rowQtyRaw row)) "total"

/-- Reference-details value inserted for a self-pickup row. -/
def selfDetail (row : GridRow) : RefDetail :=
  ⟨"Self", rowRef1 row, rowRef2 row, rowCtn row⟩

/-- Reference-details value inserted for a truck-delivery row. -/
def pdDetail (row : GridRow) : RefDetail :=
  ⟨"PD", rowRef1 row, rowRef2 row, rowCtn row⟩

/-- Classification cascade of the row loop, in source order: UPS note,
self-pickup note, truck-delivery note with a long warehouse code, short
warehouse code, and the truck-delivery fallback; otherwise the row is
dropped. -/
def classifyRow (s : AggState) (row : GridRow) : AggState :=
  if jsIncludes (rowNote row) "UPS" = true then
    { s with ws := bumpWs s.ws "UPS" (rowCtn row) }
  else if jsIncludes (rowNote row) "自提" = true then
    if rowRef1 row ≠ "" ∧ rowRef2 row ≠ "" then
      { s with refs := bumpRef s.refs (mkRefKey "Self" (rowRef1 row) (rowRef2 row)) (selfDetail row) }
    else s
  else if jsIncludes (rowNote row) "卡车派送" = true ∧ rowWarehouse row ≠ "" ∧
      4 < (rowWarehouse row).length then
    if rowRef1 row ≠ "" ∧ rowRef2 row ≠ "" then
      { s with refs := bumpRef s.refs (mkRefKey "PD" (rowRef1 row) (rowRef2 row)) (pdDetail row) }
    else s
  else if rowWarehouse row ≠ "" ∧ (rowWarehouse row).length ≤ 4 then
    { s with ws := bumpWs s.ws (rowWarehouse row) (rowCtn row) }
  else if jsIncludes (rowNote row) "卡车派送" = true ∧ rowRef1 row ≠ "" ∧ rowRef2 row ≠ "" then
    { s with refs := bumpRef s.refs (mkRefKey "PD" (rowRef1 row) (rowRef2 row)) (pdDetail row) }
  else s

/-- Per-row step of the scan for a non-empty row: ignore short rows, apply
the skip policy, then add the quantity to the running total and classify. -/
def stepRow (s : AggState) (row : GridRow) : AggState :=
  if row.length < 4 then s
  else if skipRow row = true then s
  else classifyRow { s with total := s.total + rowCtn row } row

/-- A row is fully empty when every cell trims to the empty string; a
missing row is the empty list and is fully empty as well. -/
def isRowEmpty (row : GridRow) : Bool :=
  row.all (fun c => jsTrim c == "")

/-- The data-row loop: walk the rows with the consecutive-empty-row
counter, stopping once the counter exceeds ten, resetting it on any
non-empty row before stepping the aggregation. -/
def scanRows (s : AggState) (cnt : Nat) : List GridRow → AggState
  | [] => s
  | row :: rest =>
    if isRowEmpty row = true then
      if 10 < cnt + 1 then s else scanRows s (cnt + 1) rest
    else scanRows (stepRow s row) 0 rest

/-! ## Final sort and assembly -/

/-- Code-point comparison of character lists, the model of the default
localeCompare collation on the plain warehouse codes the pipeline sees. -/
def charListLe : List Char → List Char → Bool
  | [], _ => true
  | _ :: _, [] => false
  | a :: as, b :: bs =>
    if a.toNat < b.toNat then true
    else if b.toNat < a.toNat then false
    else charListLe as bs

/-- String comparison used by the final sort. -/
def strLe (a b : String) : Bool := charListLe a.data b.data

/-- Order of the warehouse summary comparator: the literal UPS code sorts
after everything, all other codes sort by localeCompare. -/
def wsLE (a b : WhEntry) : Prop :=
  b.warehouse = "UPS" ∨ (a.warehouse ≠ "UPS" ∧ strLe a.warehouse b.warehouse = true)

instance : DecidableRel wsLE := fun _ _ =>
  inferInstanceAs (Decidable (_ ∨ _))

/-- Model of the Array.prototype.sort call on the warehouse summary. -/
def sortWs (l : List WhEntry) : List WhEntry := l.insertionSort wsLE

/-- Output contract of processExcelData. -/
structure ProcessedData where
  containerNumber : String
  total : Int
  warehouseSummary : List WhEntry
  referenceDetails : List RefDetail
deriving DecidableEq

/-- Model of processExcelData: normalize merged cells, locate the
container number and the data start, scan the data rows, then materialise
the buckets, sorting the warehouse summary with the UPS-last comparator
and emitting reference details in bucket-creation order. -/
def processExcelData (g : Grid) (merges : List MergeRegion) : ProcessedData :=
  let data := unmergeAndFillCells g merges
  let fin := scanRows initState 0 (data.drop (findDataStartRow data))
  { containerNumber := findContainerNumber data
    total := fin.total
    warehouseSummary := sortWs (fin.ws.map (fun p => ⟨p.1, p.2, ""⟩))
    referenceDetails := fin.refs.map Prod.snd }

/-! ## Summary workbook generator (generateOutputExcel)

Only the cell values of the generated worksheet are modelled; styling,
borders, column widths and cell merging carry no data.  The generation
date written next to the total is run-dependent in the code and is passed
in here as an explicit parameter. -/

/-- A written worksheet cell value: text or a number. -/
inductive OutCell where
  | s (v : String)
  | n (v : Int)
deriving DecidableEq

/-- Value rows of the generated summary worksheet, in layout order. -/
structure OutputSheet where
  row1 : List OutCell
  row2 : List OutCell
  warehouseRows : List (List OutCell)
  warehouseSubtotalRow : List OutCell
  detailHeaderRow : List OutCell
  detailRows : List (List OutCell)
  referenceSubtotalRow : List OutCell
deriving DecidableEq

/-- Model of generateOutputExcel: the warehouse subtotal is accumulated
while writing the warehouse rows, the reference subtotal while reading the
reference details, and the row-1 total is recomputed as their sum. -/
def generateOutputExcel (pd : ProcessedData) (today : String) : OutputSheet :=
  let warehouseSubTotal := pd.warehouseSummary.foldl (fun a it => a + it.ctn) 0
  let referenceDetailsSubTotal := pd.referenceDetails.foldl (fun a r => a + r.ctn) 0
  let grandTotal := warehouseSubTotal + referenceDetailsSubTotal
  { row1 := [.s "Total", .n grandTotal, .s "Date:", .s today]
    row2 := [.s "Ware House", .s "CTN", .s "Skid"] ++
      (List.range 24).map (fun i => .n ((i : Int) + 1))
    warehouseRows := pd.warehouseSummary.map (fun it => [.s it.warehouse, .n it.ctn, .s it.skid])
    warehouseSubtotalRow := [.s "SUB-TOTAL", .n warehouseSubTotal]
    detailHeaderRow := [.s "Type", .s "Reference1", .s "Reference2", .s "CTN"]
    detailRows := pd.referenceDetails.map
      (fun r => [.s r.type, .s r.reference1, .s r.reference2, .n r.ctn])
    referenceSubtotalRow := [.s "SUB-TOTAL", .s "", .s "", .n referenceDetailsSubTotal] }

/-! ## Concrete inputs used by counterexamples and witnesses -/

/-- Header row placing the CTN marker in the quantity column. -/
def hdrRow : GridRow := ["", "", "", "CTN"]

/-- Data row that passes the skip policy, carries a self-pickup note and
an empty reference1, so rule 2 drops it from every bucket. -/
def droppedSelfRow : GridRow :=
  ["", "", "", "5", "", "", "", "", "", "", "", "", "", "自提"]

/-- Grid whose only data row is the dropped self-pickup row. -/
def c1grid : Grid := [hdrRow, droppedSelfRow]

/-- Data row with a UPS note and a short warehouse code. -/
def upsRow : GridRow :=
  ["", "", "", "10", "", "", "", "", "", "", "", "", "ANY5", "UPS Express"]

/-- Data row whose quantity cell parses to a negative integer. -/
def negativeQtyRow : GridRow :=
  ["", "", "", "-5", "", "", "", "", "", "", "", "", "YYZ3", ""]

/-- Grid whose only data row has a negative quantity. -/
def c4grid : Grid := [hdrRow, negativeQtyRow]

/-- Data row with a quantity cell whose text contains an equals sign. -/
def formulaQtyRow : GridRow :=
  ["", "", "", "=SUM(3)", "", "", "", "", "", "", "", "", "YYZ3", ""]

/-- Plain data row with quantity five and a short warehouse code. -/
def plainRow : GridRow :=
  ["", "", "", "5", "", "", "", "", "", "", "", "", "YYZ3", ""]

/-- Grid with a header row, exactly ten fully empty rows, then a valid
data row. -/
def c7grid : Grid :=
  [hdrRow, [], [], [], [], [], [], [], [], [], [], plainRow]

/-- Eleven fully empty rows. -/
def elevenEmptyRows : List GridRow := List.replicate 11 ([] : GridRow)

/-- A row the classification cascade drops: the else-branches of rule 2
(self-pickup note with a missing reference), rule 3 (truck-delivery note
with a long warehouse code but a missing reference) and rule 5 (no rule
matching at all); the conditions mirror classifyRow branch for branch. -/
def droppedRow (row : GridRow) : Bool :=
  if jsIncludes (rowNote row) "UPS" = true then false
  else if jsIncludes (rowNote row) "自提" = true then
    if rowRef1 row ≠ "" ∧ rowRef2 row ≠ "" then false else true
  else if jsIncludes (rowNote row) "卡车派送" = true ∧ rowWarehouse row ≠ "" ∧
      4 < (rowWarehouse row).length then
    if rowRef1 row ≠ "" ∧ rowRef2 row ≠ "" then false else true
  else if rowWarehouse row ≠ "" ∧ (rowWarehouse row).length ≤ 4 then false
  else if jsIncludes (rowNote row) "卡车派送" = true ∧ rowRef1 row ≠ "" ∧ rowRef2 row ≠ "" then
    false
  else true

/-- What one visited row adds to the running total: its parsed quantity
when it survives the length check and the skip policy, zero otherwise. -/
def rowContribution (row : GridRow) : Int :=
  if row.length < 4 then 0 else if skipRow row = true then 0 else rowCtn row

/-- The non-empty data rows the scan actually visits: fully empty rows are
passed over while they keep the counter at ten or below, and everything
after the counter exceeds ten is never visited. -/
def scannedRows : Nat → List GridRow → List GridRow
  | _, [] => []
  | cnt, row :: rest =>
    if isRowEmpty row = true then
      if 10 < cnt + 1 then [] else scannedRows (cnt + 1) rest
    else row :: scannedRows 0 rest

/-- Invariant of the aggregation state: warehouse keys are pairwise
distinct, reference keys are pairwise distinct, and every reference entry
is stored under the key built from its own type and references. -/
def AggInv (s : AggState) : Prop :=
  (s.ws.map Prod.fst).Nodup ∧ (s.refs.map Prod.fst).Nodup ∧
    ∀ p ∈ s.refs, p.1 = mkRefKey p.2.type p.2.reference1 p.2.reference2

instance : IsTotal WhEntry wsLE := by
  constructor
  have key : ∀ x y : List Char, charListLe x y = true ∨ charListLe y x = true := by
    intro x
    induction x with
    | nil => intro y; left; rfl
    | cons a as ih =>
      intro y
      cases y with
      | nil => right; rfl
      | cons b bs =>
        by_cases h1 : a.toNat < b.toNat
        · left; unfold charListLe; rw [if_pos h1]
        · by_cases h2 : b.toNat < a.toNat
          · right; unfold charListLe; rw [if_pos h2]
          · rcases ih bs with h | h
            · left; unfold charListLe; rw [if_neg h1, if_neg h2]; exact h
            · right; unfold charListLe; rw [if_neg h2, if_neg h1]; exact h
  intro a b
  by_cases hb : b.warehouse = "UPS"
  · left; left; exact hb
  · by_cases ha : a.warehouse = "UPS"
    · right; left; exact ha
    · rcases key a.warehouse.data b.warehouse.data with h | h
      · left; right; exact ⟨ha, h⟩
      · right; right; exact ⟨hb, h⟩

instance : IsTrans WhEntry wsLE := by
  constructor
  have key : ∀ x y z : List Char, charListLe x y = true → charListLe y z = true →
      charListLe x z = true := by
    intro x
    induction x with
    | nil => intro y z _ _; rfl
    | cons a as ih =>
      intro y z h1 h2
      cases y with
      | nil => exact absurd h1 (by simp [charListLe])
      | cons b bs =>
        cases z with
        | nil => exact absurd h2 (by simp [charListLe])
        | cons c cs =>
          unfold charListLe at h1 h2 ⊢
          by_cases hab : a.toNat < b.toNat
          · by_cases hbc : b.toNat < c.toNat
            · rw [if_pos (by omega)]
            · by_cases hcb : c.toNat < b.toNat
              · rw [if_neg hbc, if_pos hcb] at h2; exact absurd h2 Bool.false_ne_true
              · rw [if_pos (by omega)]
          · by_cases hba : b.toNat < a.toNat
            · rw [if_neg hab, if_pos hba] at h1; exact absurd h1 Bool.false_ne_true
            · rw [if_neg hab, if_neg hba] at h1
              by_cases hbc : b.toNat < c.toNat
              · rw [if_pos (by omega)]
              · by_cases hcb : c.toNat < b.toNat
                · rw [if_neg hbc, if_pos hcb] at h2; exact absurd h2 Bool.false_ne_true
                · rw [if_neg hbc, if_neg hcb] at h2
                  rw [if_neg (by omega), if_neg (by omega)]
                  exact ih bs cs h1 h2
  intro a b c hab hbc
  rcases hbc with hc | ⟨hb, hbc'⟩
  · left; exact hc
  · rcases hab with hb' | ⟨ha, hab'⟩
    · exact absurd hb' hb
    · right; exact ⟨ha, key a.warehouse.data b.warehouse.data c.warehouse.data hab' hbc'⟩

/-! ## Lemmas about single-cell reads and writes -/

/-- Reading a written row position returns the written value there and the
old contents elsewhere. -/
theorem getD_setInRow : ∀ (c : Nat) (row : GridRow) (v : Cell) (c' : Nat),
    (setInRow row c v).getD c' "" = if c' = c then v else row.getD c' ""
  | 0, [], v, 0 => by simp [setInRow]
  | 0, [], v, c' + 1 => by simp [setInRow]
  | 0, x :: rest, v, 0 => by simp [setInRow]
  | 0, x :: rest, v, c' + 1 => by simp [setInRow]
  | c + 1, [], v, 0 => by simp [setInRow]
  | c + 1, [], v, c' + 1 => by
    show ("" :: setInRow [] c v).getD (c' + 1) "" = _
    rw [List.getD_cons_succ, getD_setInRow c [] v c']
    by_cases h : c' = c <;> simp [h]
  | c + 1, x :: rest, v, 0 => by simp [setInRow]
  | c + 1, x :: rest, v, c' + 1 => by
    show (x :: setInRow rest c v).getD (c' + 1) "" = _
    rw [List.getD_cons_succ, getD_setInRow c rest v c']
    by_cases h : c' = c <;> simp [h]

/-- Reading a written grid row returns the written row there and the old
rows elsewhere. -/
theorem getD_setRowIn : ∀ (r : Nat) (g : Grid) (row : GridRow) (r' : Nat),
    (setRowIn g r row).getD r' [] = if r' = r then row else g.getD r' []
  | 0, [], row, 0 => by simp [setRowIn]
  | 0, [], row, r' + 1 => by simp [setRowIn]
  | 0, x :: rest, row, 0 => by simp [setRowIn]
  | 0, x :: rest, row, r' + 1 => by simp [setRowIn]
  | r + 1, [], row, 0 => by simp [setRowIn]
  | r + 1, [], row, r' + 1 => by
    show ([] :: setRowIn [] r row).getD (r' + 1) [] = _
    rw [List.getD_cons_succ, getD_setRowIn r [] row r']
    by_cases h : r' = r <;> simp [h]
  | r + 1, x :: rest, row, 0 => by simp [setRowIn]
  | r + 1, x :: rest, row, r' + 1 => by
    show (x :: setRowIn rest r row).getD (r' + 1) [] = _
    rw [List.getD_cons_succ, getD_setRowIn r rest row r']
    by_cases h : r' = r <;> simp [h]

/-- Cell reads after a cell write. -/
theorem getCell_setCell (g : Grid) (r c : Nat) (v : Cell) (r' c' : Nat) :
    getCell (setCell g r c v) r' c' = if r' = r ∧ c' = c then v else getCell g r' c' := by
  unfold getCell setCell
  rw [getD_setRowIn]
  by_cases h1 : r' = r
  · subst h1
    rw [if_pos rfl, getD_setInRow]
    by_cases h2 : c' = c <;> simp [h2]
  · simp [h1]

/-- Reads outside the grid give the empty string. -/
theorem getCell_of_len_le (g : Grid) (r c : Nat) (h : g.length ≤ r) :
    getCell g r c = "" := by
  unfold getCell
  rw [List.getD_eq_default _ _ h]
  simp

/-- Materialising a missing row changes no cell read. -/
theorem getCell_ensureRow (g : Grid) (row r c : Nat) :
    getCell (ensureRow g row) r c = getCell g r c := by
  unfold ensureRow
  by_cases h : row < g.length
  · simp [h]
  · simp only [h, if_false]
    unfold getCell
    rw [getD_setRowIn]
    by_cases h2 : r = row
    · subst h2
      have hg : List.getD g r [] = [] := List.getD_eq_default _ _ (by omega)
      rw [if_pos rfl, hg]
    · simp [h2]

/-! ## Lemmas about the merge-region loops -/

/-- Reads after one conditional fill write. -/
theorem fillCellStep_getCell (row : Nat) (src : Cell) (d : Grid) (col r c : Nat) :
    getCell (fillCellStep row src d col) r c =
      if r = row ∧ c = col then (if getCell d r c = "" then src else getCell d r c)
      else getCell d r c := by
  unfold fillCellStep
  by_cases he : getCell d row col = ""
  · rw [if_pos he, getCell_setCell]
    by_cases h1 : r = row
    · subst h1
      by_cases h2 : c = col
      · subst h2; simp [he]
      · simp [h2]
    · simp [h1]
  · rw [if_neg he]
    by_cases h1 : r = row
    · subst h1
      by_cases h2 : c = col
      · subst h2; simp [he]
      · simp [h2]
    · simp [h1]

/-- Reads after the column fill loop of one region row: a cell of that row
in the visited columns ends at the source value if it started empty and
keeps its value otherwise; all other cells are untouched. -/
theorem foldl_fillCellStep_getCell (row : Nat) (src : Cell) :
    ∀ (L : List Nat) (d : Grid) (r c : Nat),
      getCell (L.foldl (fillCellStep row src) d) r c =
        if r = row ∧ c ∈ L then (if getCell d r c = "" then src else getCell d r c)
        else getCell d r c := by
  intro L
  induction L with
  | nil => intro d r c; simp
  | cons col L ih =>
    intro d r c
    rw [List.foldl_cons, ih, fillCellStep_getCell]
    by_cases h1 : r = row
    · subst h1
      by_cases h2 : c = col
      · subst h2
        by_cases hm : c ∈ L
        · simp only [true_and, hm, if_true, List.mem_cons, true_or]
          by_cases he : getCell d r c = "" <;> simp [he]
        · simp [hm, List.mem_cons]
      · by_cases hm : c ∈ L <;> simp [h2, hm, List.mem_cons]
    · simp [h1]

/-- Membership in a range of columns or rows written with inclusive
bounds. -/
theorem mem_range_incl (a b c : Nat) : c ∈ List.range' a (b + 1 - a) ↔ a ≤ c ∧ c ≤ b := by
  rw [List.mem_range'_1]
  omega

/-- Reads after filling one region row. -/
theorem fillRow_getCell (d : Grid) (row sc ec : Nat) (src : Cell) (r c : Nat) :
    getCell (fillRow d row sc ec src) r c =
      if r = row ∧ sc ≤ c ∧ c ≤ ec then (if getCell d r c = "" then src else getCell d r c)
      else getCell d r c := by
  unfold fillRow
  rw [foldl_fillCellStep_getCell]
  simp only [getCell_ensureRow, mem_range_incl]

/-- Reads after the row loop of a non-quantity merge region. -/
theorem foldl_fillRow_getCell (sc ec : Nat) (src : Cell) :
    ∀ (R : List Nat) (d : Grid) (r c : Nat),
      getCell (R.foldl (fun d row => fillRow d row sc ec src) d) r c =
        if r ∈ R ∧ sc ≤ c ∧ c ≤ ec then (if getCell d r c = "" then src else getCell d r c)
        else getCell d r c := by
  intro R
  induction R with
  | nil => intro d r c; simp
  | cons row R ih =>
    intro d r c
    rw [List.foldl_cons, ih, fillRow_getCell]
    by_cases hc : sc ≤ c ∧ c ≤ ec
    · by_cases h1 : r = row
      · subst h1
        by_cases hm : r ∈ R
        · simp only [hc, and_true, hm, if_true, List.mem_cons, true_or, true_and]
          by_cases he : getCell d r c = "" <;> simp [he]
        · simp [hm, hc, List.mem_cons]
      · by_cases hm : r ∈ R <;> simp [h1, hm, hc, List.mem_cons]
    · simp [hc]

/-- Reads of other rows are unchanged by one clearing write. -/
theorem clearStep_getCell_ne (col : Nat) (d : Grid) (row r c : Nat) (h : r ≠ row) :
    getCell (clearStep col d row) r c = getCell d r c := by
  unfold clearStep
  by_cases hl : row < d.length
  · rw [if_pos hl, getCell_setCell]
    simp [h]
  · rw [if_neg hl]

/-- The cleared cell of the visited row reads empty afterwards, whether or
not the row exists. -/
theorem clearStep_getCell_self (col : Nat) (d : Grid) (row : Nat) :
    getCell (clearStep col d row) row col = "" := by
  unfold clearStep
  by_cases hl : row < d.length
  · rw [if_pos hl, getCell_setCell]
    simp
  · rw [if_neg hl]
    exact getCell_of_len_le _ _ _ (by omega)

/-- Clearing writes never revive a cell of the cleared column. -/
theorem clearStep_keeps_empty (col : Nat) (d : Grid) (row r : Nat)
    (h : getCell d r col = "") :
    getCell (clearStep col d row) r col = "" := by
  by_cases hr : r = row
  · subst hr; exact clearStep_getCell_self col d r
  · rw [clearStep_getCell_ne col d row r col hr]; exact h

/-- An empty cell of the cleared column stays empty through the whole
clearing loop. -/
theorem foldl_clearStep_keeps_empty (col : Nat) :
    ∀ (R : List Nat) (d : Grid) (r : Nat), getCell d r col = "" →
      getCell (R.foldl (clearStep col) d) r col = "" := by
  intro R
  induction R with
  | nil => intro d r h; exact h
  | cons row R ih =>
    intro d r h
    rw [List.foldl_cons]
    exact ih _ _ (clearStep_keeps_empty col d row r h)

/-- Every row visited by the clearing loop ends with an empty cell in the
cleared column. -/
theorem foldl_clearStep_mem (col : Nat) :
    ∀ (R : List Nat) (d : Grid) (r : Nat), r ∈ R →
      getCell (R.foldl (clearStep col) d) r col = "" := by
  intro R
  induction R with
  | nil => intro d r h; cases h
  | cons row R ih =>
    intro d r h
    rw [List.foldl_cons]
    rcases List.mem_cons.mp h with h0 | h0
    · subst h0
      exact foldl_clearStep_keeps_empty col R _ r (clearStep_getCell_self col d r)
    · exact ih _ r h0

/-- Rows not visited by the clearing loop are unchanged. -/
theorem foldl_clearStep_not_mem (col : Nat) :
    ∀ (R : List Nat) (d : Grid) (r c : Nat), r ∉ R →
      getCell (R.foldl (clearStep col) d) r c = getCell d r c := by
  intro R
  induction R with
  | nil => intro d r c _; rfl
  | cons row R ih =>
    intro d r c h
    rw [List.foldl_cons, ih _ r c (fun hm => h (List.mem_cons.mpr (Or.inr hm))),
      clearStep_getCell_ne col d row r c (fun he => h (List.mem_cons.mpr (Or.inl he)))]

/-- C5 counterexample: in the region covering row 0, columns 0 and 1 of
the grid with cells A and X, the covered cell at column 1 keeps its
non-empty value X after unmergeAndFillCells and so differs from the value
at the top-left cell of the region, contradicting the claim that every
covered cell equals the top-left value. -/
theorem fill_region_cex :
    getCell (unmergeAndFillCells [["A", "X"]] [⟨0, 0, 0, 1⟩]) 0 1 ≠
      getCell (unmergeAndFillCells [["A", "X"]] [⟨0, 0, 0, 1⟩]) 0 0 := by
  decide

/-- C5 (amended): after unmergeAndFillCells processes a merge region whose
starting column is not the quantity column, every cell covered by the
region equals the top-left source value if that cell was empty beforehand,
and keeps its previous non-empty value otherwise. -/
theorem fill_region_amended (g : Grid) (m : MergeRegion) (r c : Nat)
    (h3 : m.startCol ≠ 3) (hr1 : m.startRow ≤ r) (hr2 : r ≤ m.endRow)
    (hc1 : m.startCol ≤ c) (hc2 : c ≤ m.endCol) :
    getCell (unmergeAndFillCells g [m]) r c =
      if getCell g r c = "" then getCell g m.startRow m.startCol else getCell g r c := by
  unfold unmergeAndFillCells
  rw [List.foldl_cons, List.foldl_nil]
  unfold applyMerge
  rw [if_neg h3, foldl_fillRow_getCell, if_pos]
  exact ⟨(mem_range_incl m.startRow m.endRow r).mpr ⟨hr1, hr2⟩, hc1, hc2⟩

/-- C5 witness: instantiating the amended fill theorem on a two-row region
over a concrete grid; the empty covered cell receives the source value. -/
theorem fill_region_amended_witness :
    getCell (unmergeAndFillCells [["A", ""], ["", ""]] [⟨0, 1, 0, 1⟩]) 1 0 =
      if getCell [["A", ""], ["", ""]] 1 0 = ""
        then getCell [["A", ""], ["", ""]] 0 0 else getCell [["A", ""], ["", ""]] 1 0 :=
  fill_region_amended [["A", ""], ["", ""]] ⟨0, 1, 0, 1⟩ 1 0
    (by decide) (by decide) (by decide) (by decide) (by decide)

/-- C6 (confirmed): after unmergeAndFillCells processes a merge region
whose starting column is the quantity column (index 3), the quantity cell
of every covered row below the first reads empty, and the first covered
row keeps its original quantity value. -/
theorem quantity_region_cleared (g : Grid) (m : MergeRegion) (r : Nat)
    (h3 : m.startCol = 3) (hr1 : m.startRow < r) (hr2 : r ≤ m.endRow) :
    getCell (unmergeAndFillCells g [m]) r 3 = "" ∧
      getCell (unmergeAndFillCells g [m]) m.startRow 3 = getCell g m.startRow 3 := by
  unfold unmergeAndFillCells
  rw [List.foldl_cons, List.foldl_nil]
  unfold applyMerge
  rw [if_pos h3, h3]
  constructor
  · exact foldl_clearStep_mem 3 _ g r (by rw [List.mem_range'_1]; omega)
  · exact foldl_clearStep_not_mem 3 _ g m.startRow 3 (by rw [List.mem_range'_1]; omega)

/-- C6 witness: instantiating the clearing theorem on a concrete two-row
quantity-column region; the second row's quantity cell is cleared and the
first keeps its value. -/
theorem quantity_region_cleared_witness :
    getCell (unmergeAndFillCells [["a", "b", "c", "7"], ["x", "y", "z", "9"]] [⟨0, 1, 3, 3⟩]) 1 3 = "" ∧
      getCell (unmergeAndFillCells [["a", "b", "c", "7"], ["x", "y", "z", "9"]] [⟨0, 1, 3, 3⟩]) 0 3 =
        getCell [["a", "b", "c", "7"], ["x", "y", "z", "9"]] 0 3 :=
  quantity_region_cleared [["a", "b", "c", "7"], ["x", "y", "z", "9"]] ⟨0, 1, 3, 3⟩ 1
    (by decide) (by decide) (by decide)

/-! ## Lemmas about bucket updates and the per-row step -/

/-- Bumping a warehouse bucket adds to the amount stored for that code. -/
theorem wsAmount_bumpWs_self : ∀ (l : List (String × Int)) (k : String) (v : Int),
    wsAmount (bumpWs l k v) k = wsAmount l k + v := by
  intro l
  induction l with
  | nil => intro k v; simp [bumpWs, bumpAssoc, wsAmount]
  | cons p rest ih =>
    intro k v
    obtain ⟨k0, v0⟩ := p
    by_cases h : k0 = k
    · subst h; simp [bumpWs, bumpAssoc, wsAmount]
    · simp only [bumpWs, bumpAssoc, h, if_false, wsAmount]
      exact ih k v

/-- Bumping a warehouse bucket leaves every other code's amount alone. -/
theorem wsAmount_bumpWs_ne : ∀ (l : List (String × Int)) (k : String) (v : Int) (k' : String),
    k' ≠ k → wsAmount (bumpWs l k v) k' = wsAmount l k' := by
  intro l
  induction l with
  | nil => intro k v k' h; simp [bumpWs, bumpAssoc, wsAmount, Ne.symm h]
  | cons p rest ih =>
    intro k v k' h
    obtain ⟨k0, v0⟩ := p
    by_cases h0 : k0 = k
    · subst h0; simp [bumpWs, bumpAssoc, wsAmount, Ne.symm h]
    · simp only [bumpWs, bumpAssoc, h0, if_false, wsAmount]
      by_cases h1 : k0 = k'
      · simp [h1]
      · rw [if_neg h1, if_neg h1]
        exact ih k v k' h

/-- Classification never touches the running total. -/
theorem classifyRow_total (s : AggState) (row : GridRow) :
    (classifyRow s row).total = s.total := by
  unfold classifyRow
  split_ifs <;> rfl

/-- C1 counterexample: the grid whose only data row passes the skip policy
with quantity 5 and a self-pickup note but has an empty reference1, so
rule 2 drops it from every bucket, still reports grand total 5 while both
bucket lists are empty; the claim that such a row's quantity is not added
to the total, and that the total equals the sum over bucketed rows, fails
here. -/
theorem dropped_row_total_cex :
    (processExcelData c1grid []).total = 5 ∧
      (processExcelData c1grid []).warehouseSummary = [] ∧
      (processExcelData c1grid []).referenceDetails = [] := by
  decide

/-- A dropped row leaves the aggregation state untouched by
classification, whichever of the three else-branches dropped it. -/
theorem classifyRow_of_dropped (s : AggState) (row : GridRow)
    (h : droppedRow row = true) : classifyRow s row = s := by
  unfold droppedRow at h
  unfold classifyRow
  split_ifs at h ⊢ <;> rfl

/-- The per-row step adds exactly the row's contribution to the total:
the parsed quantity for surviving rows and zero for skipped ones. -/
theorem stepRow_total (s : AggState) (row : GridRow) :
    (stepRow s row).total = s.total + rowContribution row := by
  unfold stepRow rowContribution
  split_ifs with h1 h2
  · omega
  · omega
  · rw [classifyRow_total]

/-- The final running total of the scan is the starting total plus the
sum of the contributions of the rows the scan visits. -/
theorem scanRows_total : ∀ (rows : List GridRow) (s : AggState) (cnt : Nat),
    (scanRows s cnt rows).total =
      s.total + ((scannedRows cnt rows).map rowContribution).sum := by
  intro rows
  induction rows with
  | nil => intro s cnt; simp [scanRows, scannedRows]
  | cons row rest ih =>
    intro s cnt
    unfold scanRows scannedRows
    by_cases h1 : isRowEmpty row = true
    · rw [if_pos h1, if_pos h1]
      by_cases h2 : 10 < cnt + 1
      · rw [if_pos h2, if_pos h2]; simp
      · rw [if_neg h2, if_neg h2]; exact ih s (cnt + 1)
    · rw [if_neg h1, if_neg h1, ih (stepRow s row) 0,
        List.map_cons, List.sum_cons, stepRow_total]
      omega

/-- C1 (amended): a data row that passes the skip policy and is then
dropped by classification — rule 2's, rule 3's or rule 5's else-branch,
including the case where no rule matches at all — still has its quantity
added to the grand total while both bucket collections stay unchanged;
moreover, the grand total returned by processExcelData equals the sum,
over the data rows the scan visits, of each row's contribution — its
parsed quantity when it passes the skip policy, zero when skipped — so
dropped rows are counted and the total can exceed the sum over bucketed
rows. -/
theorem dropped_rows_counted_in_total (g : Grid) (m : List MergeRegion)
    (s : AggState) (row : GridRow)
    (hlen : ¬ row.length < 4) (hskip : skipRow row = false)
    (hdrop : droppedRow row = true) :
    stepRow s row = { s with total := s.total + rowCtn row } ∧
      (processExcelData g m).total =
        ((scannedRows 0 ((unmergeAndFillCells g m).drop
          (findDataStartRow (unmergeAndFillCells g m)))).map rowContribution).sum := by
  constructor
  · unfold stepRow
    rw [if_neg hlen, if_neg (by rw [hskip]; exact Bool.false_ne_true)]
    exact classifyRow_of_dropped _ row hdrop
  · have h0 : (processExcelData g m).total =
        (scanRows initState 0 ((unmergeAndFillCells g m).drop
          (findDataStartRow (unmergeAndFillCells g m)))).total := rfl
    rw [h0, scanRows_total]
    show (0 : Int) + _ = _
    rw [zero_add]

/-- C1 witness: applying the amended theorem to the dropped self-pickup
row on the empty aggregation state and to the grid built around it. -/
theorem dropped_rows_counted_in_total_witness :
    (stepRow initState droppedSelfRow =
        { initState with total := initState.total + rowCtn droppedSelfRow }) ∧
      (processExcelData c1grid []).total =
        ((scannedRows 0 ((unmergeAndFillCells c1grid []).drop
          (findDataStartRow (unmergeAndFillCells c1grid [])))).map rowContribution).sum :=
  dropped_rows_counted_in_total c1grid [] initState droppedSelfRow
    (by decide) (by decide) (by decide)

/-- C2 (confirmed): a data row that passes the skip policy and whose
trimmed note contains the substring UPS has its quantity added to the UPS
warehouse bucket and to no other bucket, leaves the reference details
unchanged, and contributes to the grand total, regardless of the row's
warehouse code. -/
theorem ups_note_rules_all (s : AggState) (row : GridRow)
    (hlen : ¬ row.length < 4) (hskip : skipRow row = false)
    (hups : jsIncludes (rowNote row) "UPS" = true) :
    wsAmount (stepRow s row).ws "UPS" = wsAmount s.ws "UPS" + rowCtn row ∧
      (∀ w, w ≠ "UPS" → wsAmount (stepRow s row).ws w = wsAmount s.ws w) ∧
      (stepRow s row).refs = s.refs ∧
      (stepRow s row).total = s.total + rowCtn row := by
  unfold stepRow
  rw [if_neg hlen, if_neg (by rw [hskip]; exact Bool.false_ne_true)]
  unfold classifyRow
  rw [if_pos hups]
  exact ⟨wsAmount_bumpWs_self _ _ _, fun w hw => wsAmount_bumpWs_ne _ _ _ w hw, rfl, rfl⟩

/-- C2 witness: the row with note UPS Express, warehouse ANY5 and quantity
ten adds ten to the UPS bucket and nothing to the ANY5 bucket. -/
theorem ups_note_rules_all_witness :
    wsAmount (stepRow initState upsRow).ws "UPS" = wsAmount initState.ws "UPS" + rowCtn upsRow ∧
      wsAmount (stepRow initState upsRow).ws "ANY5" = wsAmount initState.ws "ANY5" :=
  ⟨(ups_note_rules_all initState upsRow (by decide) (by decide) (by decide)).1,
    (ups_note_rules_all initState upsRow (by decide) (by decide) (by decide)).2.1 "ANY5" (by decide)⟩

/-- C4 counterexample: a row whose quantity cell reads -5 parses to a
negative integer, passes the skip policy, and contributes -5 to the YYZ3
bucket and to the grand total, contradicting the claim that rows with
quantity at most zero contribute nothing. -/
theorem negative_qty_counted_cex :
    (processExcelData c4grid []).total = -5 ∧
      (processExcelData c4grid []).warehouseSummary = [⟨"YYZ3", -5, ""⟩] := by
  decide

/-- C4 (amended): a data row whose quantity parses to exactly zero, or is
empty or unparseable (both of which parse to zero through the or-zero
fallback), or whose raw quantity text contains an equals sign or a
case-insensitive total substring, contributes nothing to any warehouse
bucket, any reference-details bucket, or the grand total; a strictly
negative parsed quantity, however, passes the skip policy. -/
theorem zero_or_marker_qty_skipped (s : AggState) (row : GridRow)
    (h : rowCtn row = 0 ∨ jsIncludes (rowQtyRaw row) "=" = true ∨
      jsIncludes (jsToLower (rowQtyRaw row)) "total" = true) :
    stepRow s row = s := by
  unfold stepRow
  by_cases hlen : row.length < 4
  · rw [if_pos hlen]
  · have hs : skipRow row = true := by
      unfold skipRow
      rcases h with h | h | h <;> simp [h]
    rw [if_neg hlen, if_pos hs]

/-- C4 witness: the row whose quantity cell holds a formula-like text with
an equals sign leaves the aggregation state unchanged. -/
theorem zero_or_marker_qty_skipped_witness :
    stepRow initState formulaQtyRow = initState :=
  zero_or_marker_qty_skipped initState formulaQtyRow (by decide)

/-! ## Lemmas about the empty-row counter -/

/-- Once the scan enters a block of fully empty rows long enough to push
the counter past ten, it never reads anything after the block. -/
theorem scanRows_empty_block : ∀ (es : List GridRow) (s : AggState) (cnt : Nat)
    (post : List GridRow), es ≠ [] → (∀ r ∈ es, isRowEmpty r = true) →
    11 ≤ cnt + es.length →
    scanRows s cnt (es ++ post) = scanRows s cnt es := by
  intro es
  induction es with
  | nil => intro s cnt post h; exact absurd rfl h
  | cons e es ih =>
    intro s cnt post _ hall hlen
    have he : isRowEmpty e = true := hall e (List.mem_cons_self e es)
    rw [List.cons_append]
    unfold scanRows
    rw [if_pos he, if_pos he]
    by_cases hc : 10 < cnt + 1
    · rw [if_pos hc, if_pos hc]
    · rw [if_neg hc, if_neg hc]
      cases es with
      | nil => simp at hlen; omega
      | cons e2 es2 =>
        exact ih s (cnt + 1) post (by simp)
          (fun r hr => hall r (List.mem_cons_of_mem e hr)) (by simp at hlen ⊢; omega)

/-- C7 counterexample: the grid with a header row, exactly ten fully empty
rows and then a valid data row of quantity five still counts that later
row, because the scan only stops after more than ten consecutive empty
rows; the claim that a run of ten or more empty rows stops the scan fails
here. -/
theorem ten_empty_rows_cex :
    (processExcelData c7grid []).total = 5 := by
  decide

/-- C7 (amended): while iterating data rows, a run of more than ten (that
is, at least eleven) consecutive fully-empty rows stops the scan early:
the rows after such a run are never read and contribute nothing, whatever
they contain. -/
theorem empty_run_stops_scan (s : AggState) (cnt : Nat) (pre es post : List GridRow)
    (hall : ∀ r ∈ es, isRowEmpty r = true) (hlen : 11 ≤ es.length) :
    scanRows s cnt (pre ++ es ++ post) = scanRows s cnt (pre ++ es) := by
  induction pre generalizing s cnt with
  | nil =>
    exact scanRows_empty_block es s cnt post (by intro h; rw [h] at hlen; simp at hlen)
      hall (by omega)
  | cons p pre ih =>
    rw [List.cons_append, List.cons_append]
    unfold scanRows
    by_cases hp : isRowEmpty p = true
    · rw [if_pos hp, if_pos hp]
      by_cases hc : 10 < cnt + 1
      · rw [if_pos hc, if_pos hc]
      · rw [if_neg hc, if_neg hc]
        exact ih s (cnt + 1)
    · rw [if_neg hp, if_neg hp]
      exact ih (stepRow s p) 0

/-- C7 witness: eleven empty rows followed by a valid data row scan to the
same state as the eleven empty rows alone. -/
theorem empty_run_stops_scan_witness :
    scanRows initState 0 ([] ++ elevenEmptyRows ++ [plainRow]) =
      scanRows initState 0 ([] ++ elevenEmptyRows) :=
  empty_run_stops_scan initState 0 [] elevenEmptyRows [plainRow] (by decide) (by decide)

/-! ## Lemmas about the generated workbook totals -/

/-- Folding additions of a projected field equals the start value plus the
sum of the projections. -/
theorem foldl_add_map {α : Type} (f : α → Int) :
    ∀ (l : List α) (a : Int), l.foldl (fun acc x => acc + f x) a = a + (l.map f).sum := by
  intro l
  induction l with
  | nil => intro a; simp
  | cons x l ih =>
    intro a
    rw [List.foldl_cons, ih, List.map_cons, List.sum_cons]
    ring

/-- C8 (confirmed): in every workbook produced by generateOutputExcel, the
numeric total cell of row 1 (position B1) equals the sum of the CTN values
of the warehouse summary plus the sum of the CTN values of the reference
details, and those two sums are exactly the numbers written in the two
SUB-TOTAL rows. -/
theorem output_total_consistent (pd : ProcessedData) (today : String) :
    (generateOutputExcel pd today).row1.getD 1 (.s "") =
      .n ((pd.warehouseSummary.map WhEntry.ctn).sum + (pd.referenceDetails.map RefDetail.ctn).sum) ∧
      (generateOutputExcel pd today).warehouseSubtotalRow.getD 1 (.s "") =
        .n (pd.warehouseSummary.map WhEntry.ctn).sum ∧
      (generateOutputExcel pd today).referenceSubtotalRow.getD 3 (.s "") =
        .n (pd.referenceDetails.map RefDetail.ctn).sum := by
  unfold generateOutputExcel
  rw [foldl_add_map WhEntry.ctn, foldl_add_map RefDetail.ctn]
  simp

/-- C9 (confirmed): processExcelData is a pure function of the grid and
the merge-region list: two runs on equal inputs agree on every field of
the resulting summary, and no timestamp or other run-dependent value
enters it (the generation date only appears in generateOutputExcel, which
receives it as an explicit argument). -/
theorem process_deterministic (g g' : Grid) (m m' : List MergeRegion)
    (hg : g = g') (hm : m = m') :
    (processExcelData g m).containerNumber = (processExcelData g' m').containerNumber ∧
      (processExcelData g m).total = (processExcelData g' m').total ∧
      (processExcelData g m).warehouseSummary = (processExcelData g' m').warehouseSummary ∧
      (processExcelData g m).referenceDetails = (processExcelData g' m').referenceDetails := by
  subst hg
  subst hm
  exact ⟨rfl, rfl, rfl, rfl⟩

/-- C9 witness: applying determinism to the concrete UPS grid. -/
theorem process_deterministic_witness :
    (processExcelData [hdrRow, upsRow] []).containerNumber =
        (processExcelData [hdrRow, upsRow] []).containerNumber ∧
      (processExcelData [hdrRow, upsRow] []).total = (processExcelData [hdrRow, upsRow] []).total ∧
      (processExcelData [hdrRow, upsRow] []).warehouseSummary =
        (processExcelData [hdrRow, upsRow] []).warehouseSummary ∧
      (processExcelData [hdrRow, upsRow] []).referenceDetails =
        (processExcelData [hdrRow, upsRow] []).referenceDetails :=
  process_deterministic [hdrRow, upsRow] [hdrRow, upsRow] [] [] rfl rfl

/-! ## Lemmas about object keys and the aggregation invariant -/

/-- Keys after a bucket update: the old keys plus the updated key. -/
theorem mem_keys_bumpAssoc {β : Type} (merge : β → β → β) :
    ∀ (l : List (String × β)) (k : String) (v : β) (k' : String),
      (k' ∈ (bumpAssoc merge l k v).map Prod.fst ↔ k' ∈ l.map Prod.fst ∨ k' = k) := by
  intro l
  induction l with
  | nil => intro k v k'; simp [bumpAssoc]
  | cons p rest ih =>
    intro k v k'
    obtain ⟨k0, v0⟩ := p
    simp only [bumpAssoc]
    by_cases h : k0 = k
    · rw [if_pos h]
      subst h
      simp only [List.map_cons, List.mem_cons]
      tauto
    · rw [if_neg h]
      simp only [List.map_cons, List.mem_cons]
      rw [ih k v k']
      tauto

/-- A bucket update preserves distinctness of the keys. -/
theorem nodup_keys_bumpAssoc {β : Type} (merge : β → β → β) :
    ∀ (l : List (String × β)) (k : String) (v : β),
      (l.map Prod.fst).Nodup → ((bumpAssoc merge l k v).map Prod.fst).Nodup := by
  intro l
  induction l with
  | nil => intro k v _; simp [bumpAssoc]
  | cons p rest ih =>
    intro k v h
    obtain ⟨k0, v0⟩ := p
    simp only [List.map_cons, List.nodup_cons] at h
    simp only [bumpAssoc]
    by_cases h0 : k0 = k
    · rw [if_pos h0]
      simp only [List.map_cons, List.nodup_cons]
      exact h
    · rw [if_neg h0]
      simp only [List.map_cons, List.nodup_cons]
      refine ⟨fun hm => ?_, ih k v h.2⟩
      rcases (mem_keys_bumpAssoc merge rest k v k0).mp hm with hm | hm
      · exact h.1 hm
      · exact h0 hm

/-- A bucket update preserves any per-entry property that holds for the
inserted pair and is stable under merging into an existing entry. -/
theorem pred_bumpAssoc {β : Type} (merge : β → β → β) (P : String × β → Prop) :
    ∀ (l : List (String × β)) (k : String) (v : β),
      (∀ p ∈ l, P p) → P (k, v) → (∀ k0 v0, P (k0, v0) → P (k0, merge v0 v)) →
      ∀ p ∈ bumpAssoc merge l k v, P p := by
  intro l
  induction l with
  | nil =>
    intro k v _ hkv _ p hp
    simp only [bumpAssoc, List.mem_singleton] at hp
    subst hp; exact hkv
  | cons q rest ih =>
    intro k v hall hkv hmerge p hp
    obtain ⟨k0, v0⟩ := q
    simp only [bumpAssoc] at hp
    by_cases h0 : k0 = k
    · rw [if_pos h0] at hp
      rcases List.mem_cons.mp hp with hp | hp
      · subst hp; exact hmerge k0 v0 (hall _ (List.mem_cons_self _ _))
      · exact hall _ (List.mem_cons_of_mem _ hp)
    · rw [if_neg h0] at hp
      rcases List.mem_cons.mp hp with hp | hp
      · subst hp; exact hall _ (List.mem_cons_self _ _)
      · exact ih k v (fun q hq => hall q (List.mem_cons_of_mem _ hq)) hkv hmerge p hp

/-- The empty aggregation state satisfies the invariant. -/
theorem AggInv_initState : AggInv initState := by
  refine ⟨?_, ?_, ?_⟩ <;> simp [AggInv, initState]

/-- Classification preserves the aggregation invariant. -/
theorem AggInv_classifyRow (s : AggState) (row : GridRow) (h : AggInv s) :
    AggInv (classifyRow s row) := by
  obtain ⟨h1, h2, h3⟩ := h
  unfold classifyRow
  split_ifs with hc1 hc2 hc3 hc4 hc5 hc6 hc7
  · exact ⟨nodup_keys_bumpAssoc _ s.ws _ _ h1, h2, h3⟩
  · exact ⟨h1, nodup_keys_bumpAssoc _ s.refs _ _ h2,
      pred_bumpAssoc _ _ s.refs _ _ h3 rfl (fun k0 v0 hp => hp)⟩
  · exact ⟨h1, h2, h3⟩
  · exact ⟨h1, nodup_keys_bumpAssoc _ s.refs _ _ h2,
      pred_bumpAssoc _ _ s.refs _ _ h3 rfl (fun k0 v0 hp => hp)⟩
  · exact ⟨h1, h2, h3⟩
  · exact ⟨nodup_keys_bumpAssoc _ s.ws _ _ h1, h2, h3⟩
  · exact ⟨h1, nodup_keys_bumpAssoc _ s.refs _ _ h2,
      pred_bumpAssoc _ _ s.refs _ _ h3 rfl (fun k0 v0 hp => hp)⟩
  · exact ⟨h1, h2, h3⟩

/-- The per-row step preserves the aggregation invariant. -/
theorem AggInv_stepRow (s : AggState) (row : GridRow) (h : AggInv s) :
    AggInv (stepRow s row) := by
  unfold stepRow
  split_ifs with hc1 hc2
  · exact h
  · exact h
  · exact AggInv_classifyRow _ row ⟨h.1, h.2.1, h.2.2⟩

/-- The whole data-row scan preserves the aggregation invariant. -/
theorem AggInv_scanRows : ∀ (rows : List GridRow) (s : AggState) (cnt : Nat),
    AggInv s → AggInv (scanRows s cnt rows) := by
  intro rows
  induction rows with
  | nil => intro s cnt h; exact h
  | cons row rest ih =>
    intro s cnt h
    unfold scanRows
    split_ifs with hc1 hc2
    · exact h
    · exact ih s (cnt + 1) h
    · exact ih (stepRow s row) 0 (AggInv_stepRow s row h)

/-- The warehouse codes of every produced summary are pairwise distinct. -/
theorem pe_wh_nodup (g : Grid) (m : List MergeRegion) :
    ((processExcelData g m).warehouseSummary.map WhEntry.warehouse).Nodup := by
  have hinv := AggInv_scanRows
    ((unmergeAndFillCells g m).drop (findDataStartRow (unmergeAndFillCells g m)))
    initState 0 AggInv_initState
  have hws : (processExcelData g m).warehouseSummary =
      sortWs ((scanRows initState 0
        ((unmergeAndFillCells g m).drop (findDataStartRow (unmergeAndFillCells g m)))).ws.map
          (fun p => ⟨p.1, p.2, ""⟩)) := rfl
  rw [hws]
  have hperm := (List.perm_insertionSort wsLE ((scanRows initState 0
    ((unmergeAndFillCells g m).drop (findDataStartRow (unmergeAndFillCells g m)))).ws.map
      (fun p => ⟨p.1, p.2, ""⟩))).map WhEntry.warehouse
  refine hperm.nodup_iff.mpr ?_
  rw [List.map_map]
  exact (List.map_congr_left (fun p _ => rfl)).symm ▸ hinv.1

/-- The type and reference triples of every produced summary's reference
details are pairwise distinct: two entries with the same triple would have
been stored under the same object key. -/
theorem pe_ref_nodup (g : Grid) (m : List MergeRegion) :
    ((processExcelData g m).referenceDetails.map
      (fun d => (d.type, d.reference1, d.reference2))).Nodup := by
  have hinv := AggInv_scanRows
    ((unmergeAndFillCells g m).drop (findDataStartRow (unmergeAndFillCells g m)))
    initState 0 AggInv_initState
  have hrefs : (processExcelData g m).referenceDetails =
      (scanRows initState 0
        ((unmergeAndFillCells g m).drop (findDataStartRow (unmergeAndFillCells g m)))).refs.map
        Prod.snd := rfl
  rw [hrefs, List.map_map]
  have hcong : (scanRows initState 0
        ((unmergeAndFillCells g m).drop (findDataStartRow (unmergeAndFillCells g m)))).refs.map
        Prod.fst =
      (scanRows initState 0
        ((unmergeAndFillCells g m).drop (findDataStartRow (unmergeAndFillCells g m)))).refs.map
        (fun p => mkRefKey p.2.type p.2.reference1 p.2.reference2) :=
    List.map_congr_left hinv.2.2
  have h2 := hcong ▸ hinv.2.1
  have h3 : (List.map (fun t : String × String × String => mkRefKey t.1 t.2.1 t.2.2)
      ((scanRows initState 0
        ((unmergeAndFillCells g m).drop (findDataStartRow (unmergeAndFillCells g m)))).refs.map
        ((fun d : RefDetail => (d.type, d.reference1, d.reference2)) ∘ Prod.snd))).Nodup := by
    rw [List.map_map]
    exact h2
  exact List.Nodup.of_map _ h3

/-- C10 (confirmed): in every summary produced by processExcelData the
warehouse codes are pairwise distinct, the type and reference triples of
the reference details are pairwise distinct, and every warehouse entry has
an empty skid: rows landing in the same bucket are merged by adding
quantities, never emitted twice. -/
theorem buckets_merged_unique (g : Grid) (m : List MergeRegion) :
    ((processExcelData g m).warehouseSummary.map WhEntry.warehouse).Nodup ∧
      ((processExcelData g m).referenceDetails.map
        (fun d => (d.type, d.reference1, d.reference2))).Nodup ∧
      (processExcelData g m).warehouseSummary.all (fun e => e.skid == "") = true := by
  refine ⟨pe_wh_nodup g m, pe_ref_nodup g m, ?_⟩
  rw [List.all_eq_true]
  intro e he
  have hws : (processExcelData g m).warehouseSummary =
      sortWs ((scanRows initState 0
        ((unmergeAndFillCells g m).drop (findDataStartRow (unmergeAndFillCells g m)))).ws.map
          (fun p => ⟨p.1, p.2, ""⟩)) := rfl
  rw [hws] at he
  have he2 : e ∈ ((scanRows initState 0
      ((unmergeAndFillCells g m).drop (findDataStartRow (unmergeAndFillCells g m)))).ws.map
        (fun p => (⟨p.1, p.2, ""⟩ : WhEntry))) :=
    (List.perm_insertionSort wsLE _).mem_iff.mp he
  obtain ⟨p, hp, hpe⟩ := List.mem_map.mp he2
  rw [← hpe]
  rfl

/-- C3 (confirmed): in every summary produced by processExcelData, the
warehouse list is ordered so that a UPS entry can only be followed by UPS
entries, every non-UPS entry strictly precedes, in the code-point order
modelling localeCompare, each entry after it, and warehouse codes are
pairwise distinct; together these say the UPS entry, when present, is
last, and the remaining entries appear in strictly ascending
lexicographic order. -/
theorem warehouse_order_ups_last (g : Grid) (m : List MergeRegion) :
    List.Pairwise (fun a b => b.warehouse = "UPS" ∨
        (a.warehouse ≠ "UPS" ∧ strLe a.warehouse b.warehouse = true ∧
          a.warehouse ≠ b.warehouse))
      (processExcelData g m).warehouseSummary ∧
      ((processExcelData g m).warehouseSummary.map WhEntry.warehouse).Nodup := by
  refine ⟨?_, pe_wh_nodup g m⟩
  have hws : (processExcelData g m).warehouseSummary =
      sortWs ((scanRows initState 0
        ((unmergeAndFillCells g m).drop (findDataStartRow (unmergeAndFillCells g m)))).ws.map
          (fun p => ⟨p.1, p.2, ""⟩)) := rfl
  have hs : List.Pairwise wsLE (processExcelData g m).warehouseSummary := by
    rw [hws]
    exact List.sorted_insertionSort wsLE _
  have hne : List.Pairwise (fun a b => a.warehouse ≠ b.warehouse)
      (processExcelData g m).warehouseSummary :=
    List.pairwise_map.mp (pe_wh_nodup g m)
  refine (hs.and hne).imp ?_
  intro a b h
  obtain ⟨h1, h2⟩ := h
  rcases h1 with hle | ⟨ha, hl⟩
  · exact Or.inl hle
  · exact Or.inr ⟨ha, hl, h2⟩
